import Mathlib

/-
Verification development for update_remotes.py, a batch tool that
discovers local git repositories under a target path, creates a hosted
repository for each one, repoints the local remote and pushes all
branches.

The filesystem is modelled as a forest of named entries (files and
directories); paths are lists of name components.  External commands
(git, gh) are modelled as oracles in a `World` structure; each oracle
returns either the command's stdout or an error code with stderr,
mirroring subprocess.run with check=True raising CalledProcessError.
Mutating commands are recorded as an `Effect` trace.
-/

set_option autoImplicit false

namespace UpdateRemotes

/-- Forest is a sibling-list encoding of a directory listing: an entry is
either a file with a name, or a directory with a name and its own children
forest; each constructor carries the rest of the sibling list. -/
inductive Forest where
  | nil : Forest
  | file : String → Forest → Forest
  | dir : String → Forest → Forest → Forest
deriving DecidableEq

/-- Node is what a path lookup resolves to: a plain file, or a directory
together with its children. -/
inductive Node where
  | file : Node
  | dir : Forest → Node
deriving DecidableEq

/-- Names of the directory entries of a listing, in order; this is what
os.walk reports as `dirs` for the visited root. -/
def dirNames : Forest → List String
  | Forest.nil => []
  | Forest.file _ rest => dirNames rest
  | Forest.dir n _ rest => n :: dirNames rest

/-- Names of all entries of a listing, files and directories alike. -/
def namesOf : Forest → List String
  | Forest.nil => []
  | Forest.file n rest => n :: namesOf rest
  | Forest.dir n _ rest => n :: namesOf rest

/-- Whether the listing contains an entry (file or directory) with the
given name; this is the existence test performed by Path.exists. -/
def hasEntryNamed (s : String) : Forest → Bool
  | Forest.nil => false
  | Forest.file n rest => n == s || hasEntryNamed s rest
  | Forest.dir n _ rest => n == s || hasEntryNamed s rest

/-- Resolve one name inside a listing. -/
def findName : Forest → String → Option Node
  | Forest.nil, _ => none
  | Forest.file n rest, s => if n == s then some Node.file else findName rest s
  | Forest.dir n f rest, s => if n == s then some (Node.dir f) else findName rest s

/-- Resolve a relative path starting from a node. -/
def lookupGo : Node → List String → Option Node
  | nd, [] => some nd
  | Node.file, _ :: _ => none
  | Node.dir f, s :: rest =>
    match findName f s with
    | some nd => lookupGo nd rest
    | none => none

/-- Resolve an absolute path in a filesystem whose root listing is `fs`. -/
def lookupNode (fs : Forest) (p : List String) : Option Node :=
  lookupGo (Node.dir fs) p

/-- Path.exists of the python source. -/
def pexists (fs : Forest) (p : List String) : Bool :=
  (lookupNode fs p).isSome

/-- Path.is_dir of the python source. -/
def isDirAt (fs : Forest) (p : List String) : Bool :=
  match lookupNode fs p with
  | some (Node.dir _) => true
  | _ => false

/-- is_git_repo from the source: (path / ".git").exists(), satisfied by a
file entry as well as a directory entry named ".git". -/
def is_git_repo (fs : Forest) (path : List String) : Bool :=
  pexists fs (path ++ [".git"])

/-- Well-formed listing: sibling names are distinct, recursively.  Real
filesystems satisfy this (a directory cannot hold two entries of the same
name). -/
def wfForest : Forest → Bool
  | Forest.nil => true
  | Forest.file n rest => !(namesOf rest).contains n && wfForest rest
  | Forest.dir n f rest => !(namesOf rest).contains n && wfForest f && wfForest rest

/-- Well-formedness of a resolved node. -/
def wfNode : Node → Bool
  | Node.file => true
  | Node.dir f => wfForest f

/-- Body of the os.walk loop in find_repositories for one visited root
with children listing `f`: if ".git" is among the subdirectory names and
(path / ".git") exists, the root is recorded as a repository. -/
def visitHere (f : Forest) (p : List String) : List (List String) :=
  if (dirNames f).contains ".git" then
    (if hasEntryNamed ".git" f then [p] else [])
  else []

/-- Recursion of the os.walk loop over the children of a visited root.
`prune` tells whether the parent executed `dirs[:] = [d for d in dirs if
d != ".git"]`, i.e. whether a subdirectory named ".git" must be skipped.
Note only the ".git" entry is pruned: other subdirectories are descended
into even when the parent was itself recorded as a repository. -/
def walkChildren : Bool → Forest → List String → List (List String)
  | _, Forest.nil, _ => []
  | prune, Forest.file _ rest, p => walkChildren prune rest p
  | prune, Forest.dir n f rest, p =>
    (if prune && n == ".git" then []
     else
       visitHere f (p ++ [n]) ++
       walkChildren ((dirNames f).contains ".git") f (p ++ [n])) ++
    walkChildren prune rest p

/-- The os.walk loop of find_repositories started at `p`: os.walk yields
nothing when `p` is not an existing directory, otherwise it visits `p`
first and then its subdirectories top-down. -/
def walkFrom (fs : Forest) (p : List String) : List (List String) :=
  match lookupNode fs p with
  | some (Node.dir f) =>
    visitHere f p ++ walkChildren ((dirNames f).contains ".git") f p
  | _ => []

/-- Command-line target: its path components and whether the raw string
ends with the path separator (str(target).endswith('/')). -/
structure Target where
  comps : List String
  endsWithSep : Bool
deriving DecidableEq

/-- find_repositories from the source: a trailing-separator or existing
directory target is a search root (falling back to the parent directory
when the target itself does not exist); any other target is included only
if it exists and is itself a git repository. -/
def find_repositories (fs : Forest) (t : Target) : List (List String) :=
  if t.endsWithSep || (pexists fs t.comps && isDirAt fs t.comps) then
    walkFrom fs (if pexists fs t.comps then t.comps else t.comps.dropLast)
  else if pexists fs t.comps && is_git_repo fs t.comps then [t.comps]
  else []

/-- Whether the node reached by `s` from `nd` is a directory having a
directory child named ".git". -/
def gitDirAt (nd : Node) (s : List String) : Bool :=
  match lookupGo nd s with
  | some (Node.dir f) => (dirNames f).contains ".git"
  | _ => false

/-- Whether the directory at absolute path `q` has a directory child
named ".git". -/
def hasGitDirChild (fs : Forest) (q : List String) : Bool :=
  gitDirAt (Node.dir fs) q

/-- Whitespace test for str.strip. -/
def isWs (c : Char) : Bool :=
  c == ' ' || c == '\t' || c == '\n' || c == '\r'

/-- str.strip of python: remove leading and trailing whitespace. -/
def stripString (s : String) : String :=
  String.mk ((((s.data.dropWhile isWs).reverse.dropWhile isWs).reverse))

/-- str.lower of python, on the ASCII strings this tool handles. -/
def lowerString (s : String) : String :=
  String.mk (s.data.map Char.toLower)

/-- Outcome of one external command run with check=True: ok carries the
stdout, err carries the nonzero return code and stderr of the raised
CalledProcessError. -/
inductive ProcResult where
  | ok : String → ProcResult
  | err : Nat → String → ProcResult
deriving DecidableEq, Repr

/-- World bundles the filesystem with oracles for every external command
the tool runs: git remote get-url, gh repo view, gh repo create, git
remote set-url and git push --all. -/
structure World where
  fs : Forest
  gitGetUrl : List String → ProcResult
  ghView : String → ProcResult
  ghCreate : String → String → ProcResult
  gitSetUrl : List String → String → ProcResult
  gitPush : List String → ProcResult

/-- Mutating external calls attempted by the tool, recorded in order. -/
inductive Effect where
  | create : String → String → Effect
  | setUrl : List String → String → Effect
  | push : List String → Effect
deriving DecidableEq, Repr

/-- get_current_remote from the source: the stripped stdout of git remote
get-url origin, or None when the command fails for any reason. -/
def get_current_remote (w : World) (path : List String) : Option String :=
  match w.gitGetUrl path with
  | ProcResult.ok out => some (stripString out)
  | ProcResult.err _ _ => none

/-- repo_exists from the source: true when gh repo view succeeds, false
when it fails for any reason. -/
def repo_exists (w : World) (name : String) : Bool :=
  match w.ghView name with
  | ProcResult.ok _ => true
  | ProcResult.err _ _ => false

/-- create_github_repo from the source: attempt gh repo create on the
prefixed name and return the stripped stdout as the new URL, or None on
failure.  The attempted call is recorded either way. -/
def create_github_repo (w : World) (name : String) (description : String) :
    Option String × List Effect :=
  match w.ghCreate ("migration25-" ++ name) description with
  | ProcResult.ok out =>
    (some (stripString out), [Effect.create ("migration25-" ++ name) description])
  | ProcResult.err _ _ => (none, [Effect.create ("migration25-" ++ name) description])

/-- update_remote from the source: git remote set-url, then git push
--all; a set-url failure returns False without attempting the push, a
push failure returns False after both attempts. -/
def update_remote (w : World) (path : List String) (newUrl : String) :
    Bool × List Effect :=
  match w.gitSetUrl path newUrl with
  | ProcResult.ok _ =>
    match w.gitPush path with
    | ProcResult.ok _ => (true, [Effect.setUrl path newUrl, Effect.push path])
    | ProcResult.err _ _ => (false, [Effect.setUrl path newUrl, Effect.push path])
  | ProcResult.err _ _ => (false, [Effect.setUrl path newUrl])

/-- Python truthiness of an optional string: None and the empty string
are falsy. -/
def truthyStr : Option String → Bool
  | none => false
  | some s => !s.data.isEmpty

/-- Path.name: the final path component. -/
def dirName (p : List String) : String :=
  p.getLastD ""

/-- process_repository from the source: skip non-repositories and
repositories without a truthy remote; skip when the prefixed target name
already exists on the host; otherwise create, then update the remote and
push. -/
def process_repository (w : World) (directory : List String) :
    Bool × List Effect :=
  if !is_git_repo w.fs directory then (false, [])
  else if truthyStr (get_current_remote w directory) then
    if repo_exists w ("migration25-" ++ dirName directory) then (true, [])
    else
      let cr := create_github_repo w (dirName directory) ""
      if truthyStr cr.1 then
        let ur := update_remote w directory (cr.1.getD "")
        (ur.1, cr.2 ++ ur.2)
      else (false, cr.2)
  else (false, [])

/-- The final loop of main: every discovered repository is processed in
order, ignoring each per-repository outcome. -/
def runAll (w : World) : List (List String) → List Effect
  | [] => []
  | d :: rest => (process_repository w d).2 ++ runAll w rest

/-- main from the source, after the argument check: discover, exit 1 on
an empty result, ask for confirmation, exit 0 with no effects unless the
lowercased response is "yes", otherwise process every repository and
exit 0. -/
def mainRun (w : World) (t : Target) (response : String) :
    Nat × List Effect :=
  if (find_repositories w.fs t).isEmpty then (1, [])
  else if lowerString response == "yes" then (0, runAll w (find_repositories w.fs t))
  else (0, [])

/-- Semantics of one recorded effect on the configured-remote state (an
association list from repository path to origin URL): only a successful
git remote set-url changes it. -/
def applyEffect (w : World) (st : List (List String × String)) :
    Effect → List (List String × String)
  | Effect.create _ _ => st
  | Effect.push _ => st
  | Effect.setUrl p u =>
    match w.gitSetUrl p u with
    | ProcResult.ok _ => (p, u) :: st.filter (fun e => !(e.1 == p))
    | ProcResult.err _ _ => st

/-- Semantics of a recorded trace on the configured-remote state. -/
def remotesAfter (w : World) (st : List (List String × String)) :
    List Effect → List (List String × String)
  | [] => st
  | e :: rest => remotesAfter w (applyEffect w st e) rest

/-- Concrete tree for discovery claims: repository A directly contains
repository B (A/.git/, A/B/.git/). -/
def fsNested : Forest :=
  Forest.dir "A"
    (Forest.dir ".git" Forest.nil
      (Forest.dir "B" (Forest.dir ".git" Forest.nil Forest.nil) Forest.nil))
    Forest.nil

/-- Concrete tree whose directory A holds a repository R (A/R/.git/). -/
def fsC7 : Forest :=
  Forest.dir "A"
    (Forest.dir "R" (Forest.dir ".git" Forest.nil Forest.nil) Forest.nil)
    Forest.nil

/-- Concrete tree whose directory A holds ".git" as a plain file. -/
def fsDotGitFile : Forest :=
  Forest.dir "A" (Forest.file ".git" Forest.nil) Forest.nil

/-- Concrete tree with a single repository A (A/.git/). -/
def fsSingle : Forest :=
  Forest.dir "A" (Forest.dir ".git" Forest.nil Forest.nil) Forest.nil

/-- World over fsSingle with every oracle constant, for concrete runs. -/
def demoWorld (getUrlR viewR createR setUrlR pushR : ProcResult) : World where
  fs := fsSingle
  gitGetUrl := fun _ => getUrlR
  ghView := fun _ => viewR
  ghCreate := fun _ _ => createR
  gitSetUrl := fun _ _ => setUrlR
  gitPush := fun _ => pushR

/-- Target naming directory A, without a trailing separator. -/
def tgtA : Target := ⟨["A"], false⟩

/-- World in which A has remote git@old:A.git, its target name is free,
and creation, set-url and push all succeed. -/
def wHappy : World :=
  demoWorld (ProcResult.ok "git@old:A.git\n") (ProcResult.err 1 "not found")
    (ProcResult.ok "https://github.com/me/migration25-A\n") (ProcResult.ok "")
    (ProcResult.ok "")

/-- World in which the target name already exists on the host. -/
def wExists : World :=
  demoWorld (ProcResult.ok "git@old:A.git\n") (ProcResult.ok "info")
    (ProcResult.ok "https://github.com/me/migration25-A\n") (ProcResult.ok "")
    (ProcResult.ok "")

/-- World in which A has no configured remote (get-url fails). -/
def wNoRemote : World :=
  demoWorld (ProcResult.err 2 "error: No such remote") (ProcResult.err 1 "not found")
    (ProcResult.ok "https://github.com/me/migration25-A\n") (ProcResult.ok "")
    (ProcResult.ok "")

/-- World in which gh repo create fails. -/
def wCreateFail : World :=
  demoWorld (ProcResult.ok "git@old:A.git\n") (ProcResult.err 1 "not found")
    (ProcResult.err 1 "GraphQL: Name already exists on this account")
    (ProcResult.ok "") (ProcResult.ok "")

/-- World in which git remote set-url fails. -/
def wSetUrlFail : World :=
  demoWorld (ProcResult.ok "git@old:A.git\n") (ProcResult.err 1 "not found")
    (ProcResult.ok "https://github.com/me/migration25-A\n")
    (ProcResult.err 128 "fatal: not a git repository") (ProcResult.ok "")

/-- A resolved name is among the listing's entry names. -/
theorem findName_mem_names (f : Forest) (s : String) (nd : Node)
    (h : findName f s = some nd) : s ∈ namesOf f := by
  induction f with
  | nil => simp [findName] at h
  | file n rest ih =>
    simp only [findName] at h
    split at h
    · rename_i hn
      simp [namesOf, (eq_of_beq hn).symm]
    · exact List.mem_cons_of_mem _ (ih h)
  | dir n f2 rest ihf ihrest =>
    simp only [findName] at h
    split at h
    · rename_i hn
      simp [namesOf, (eq_of_beq hn).symm]
    · exact List.mem_cons_of_mem _ (ihrest h)

/-- Lookup along an appended path composes. -/
theorem lookupGo_append (p s : List String) (nd : Node) :
    lookupGo nd (p ++ s) = (lookupGo nd p).bind (fun nd2 => lookupGo nd2 s) := by
  induction p generalizing nd with
  | nil => simp [lookupGo]
  | cons a p2 ih =>
    cases nd with
    | file => rfl
    | dir f =>
      cases hf : findName f a with
      | none => simp [List.cons_append, lookupGo, hf]
      | some nd1 => simp [List.cons_append, lookupGo, hf, ih]

/-- A name resolved in a well-formed listing yields a well-formed node. -/
theorem findName_wf (f : Forest) (s : String) (nd : Node)
    (hw : wfForest f = true) (h : findName f s = some nd) : wfNode nd = true := by
  induction f with
  | nil => simp [findName] at h
  | file n rest ih =>
    simp only [wfForest, Bool.and_eq_true] at hw
    simp only [findName] at h
    split at h
    · injection h with h2
      subst h2
      rfl
    · exact ih hw.2 h
  | dir n f2 rest ihf ihrest =>
    simp only [wfForest, Bool.and_eq_true] at hw
    simp only [findName] at h
    split at h
    · injection h with h2
      subst h2
      exact hw.1.2
    · exact ihrest hw.2 h

/-- A path lookup from a well-formed node yields a well-formed node. -/
theorem lookupGo_wf (p : List String) (nd nd2 : Node)
    (hw : wfNode nd = true) (h : lookupGo nd p = some nd2) : wfNode nd2 = true := by
  induction p generalizing nd with
  | nil =>
    simp only [lookupGo, Option.some.injEq] at h
    subst h
    exact hw
  | cons a p2 ih =>
    cases nd with
    | file => simp [lookupGo] at h
    | dir f =>
      cases hf : findName f a with
      | none => simp [lookupGo, hf] at h
      | some nd1 =>
        simp only [lookupGo, hf] at h
        exact ih nd1 (findName_wf f a nd1 hw hf) h

/-- Entering the first entry, a directory named n, preserves gitDirAt. -/
theorem gitDirAt_enter (n : String) (f rest : Forest) (s : List String)
    (h : gitDirAt (Node.dir f) s = true) :
    gitDirAt (Node.dir (Forest.dir n f rest)) (n :: s) = true := by
  simpa [gitDirAt, lookupGo, findName] using h

/-- Skipping a leading file entry whose name is fresh preserves gitDirAt. -/
theorem gitDirAt_skip_file (n : String) (rest : Forest) (s : List String)
    (hn : (namesOf rest).contains n = false)
    (h : gitDirAt (Node.dir rest) s = true) :
    gitDirAt (Node.dir (Forest.file n rest)) s = true := by
  cases s with
  | nil => simpa [gitDirAt, lookupGo, dirNames] using h
  | cons a s2 =>
    cases hf : findName rest a with
    | none => simp [gitDirAt, lookupGo, hf] at h
    | some nd1 =>
      have ha : a ∈ namesOf rest := findName_mem_names rest a nd1 hf
      have hna : ¬(n = a) := by
        intro he
        subst he
        have hc : (namesOf rest).contains n = true := List.elem_iff.2 ha
        rw [hn] at hc
        exact Bool.noConfusion hc
      simp only [gitDirAt, lookupGo, hf] at h
      simpa [gitDirAt, lookupGo, findName, hf, hna] using h

/-- Skipping a leading directory entry whose name is fresh preserves
gitDirAt. -/
theorem gitDirAt_skip_dir (n : String) (f rest : Forest) (s : List String)
    (hn : (namesOf rest).contains n = false)
    (h : gitDirAt (Node.dir rest) s = true) :
    gitDirAt (Node.dir (Forest.dir n f rest)) s = true := by
  cases s with
  | nil =>
    simp only [gitDirAt, lookupGo] at h
    simp [gitDirAt, lookupGo, dirNames, List.contains_cons]
    exact Or.inr (List.elem_iff.1 h)
  | cons a s2 =>
    cases hf : findName rest a with
    | none => simp [gitDirAt, lookupGo, hf] at h
    | some nd1 =>
      have ha : a ∈ namesOf rest := findName_mem_names rest a nd1 hf
      have hna : ¬(n = a) := by
        intro he
        subst he
        have hc : (namesOf rest).contains n = true := List.elem_iff.2 ha
        rw [hn] at hc
        exact Bool.noConfusion hc
      simp only [gitDirAt, lookupGo, hf] at h
      simpa [gitDirAt, lookupGo, findName, hf, hna] using h

/-- Membership in the record made at one visited root. -/
theorem mem_visitHere (f : Forest) (p q : List String) (h : q ∈ visitHere f p) :
    q = p ∧ (dirNames f).contains ".git" = true := by
  unfold visitHere at h
  split at h
  · rename_i hc
    split at h
    · simp only [List.mem_singleton] at h
      exact ⟨h, hc⟩
    · simp at h
  · simp at h

/-- Every path recorded while walking the children of a well-formed
listing extends the root path and resolves to a directory with a
directory child named ".git". -/
theorem mem_walkChildren_gitDir :
    ∀ (f : Forest) (prune : Bool) (p q : List String), wfForest f = true →
      q ∈ walkChildren prune f p →
      ∃ s, q = p ++ s ∧ gitDirAt (Node.dir f) s = true := by
  intro f
  induction f with
  | nil =>
    intro prune p q hw h
    simp [walkChildren] at h
  | file n rest ih =>
    intro prune p q hw h
    simp only [wfForest, Bool.and_eq_true, Bool.not_eq_true'] at hw
    simp only [walkChildren] at h
    obtain ⟨s, hq, hg⟩ := ih prune p q hw.2 h
    exact ⟨s, hq, gitDirAt_skip_file n rest s hw.1 hg⟩
  | dir n f2 rest ihf ihrest =>
    intro prune p q hw h
    simp only [wfForest, Bool.and_eq_true, Bool.not_eq_true'] at hw
    simp only [walkChildren] at h
    rcases List.mem_append.1 h with h1 | h2
    · by_cases hp : (prune && (n == ".git")) = true
      · rw [if_pos hp] at h1
        simp at h1
      · rw [if_neg hp] at h1
        rcases List.mem_append.1 h1 with hv | hrec
        · obtain ⟨hq, hc⟩ := mem_visitHere f2 (p ++ [n]) q hv
          refine ⟨[n], hq, ?_⟩
          exact gitDirAt_enter n f2 rest [] (by simpa [gitDirAt, lookupGo] using hc)
        · obtain ⟨s2, hq, hg⟩ := ihf ((dirNames f2).contains ".git") (p ++ [n]) q hw.1.2 hrec
          refine ⟨n :: s2, by simp [hq], gitDirAt_enter n f2 rest s2 hg⟩
    · obtain ⟨s, hq, hg⟩ := ihrest prune p q hw.2 h2
      exact ⟨s, hq, gitDirAt_skip_dir n f2 rest s hw.1.1 hg⟩

/-- Every path produced by the walk phase of discovery over a
well-formed filesystem resolves to a directory that has a directory
child named ".git". -/
theorem mem_walkFrom_gitDir (fs : Forest) (p q : List String)
    (hw : wfForest fs = true) (h : q ∈ walkFrom fs p) :
    hasGitDirChild fs q = true := by
  unfold walkFrom at h
  cases hl : lookupNode fs p with
  | none =>
    rw [hl] at h
    simp at h
  | some nd =>
    rw [hl] at h
    cases nd with
    | file => simp at h
    | dir f =>
      have hwf : wfForest f = true := lookupGo_wf p (Node.dir fs) (Node.dir f) hw hl
      rcases List.mem_append.1 h with hv | hc
      · obtain ⟨hq, hgit⟩ := mem_visitHere f p q hv
        subst hq
        unfold hasGitDirChild gitDirAt
        rw [show lookupGo (Node.dir fs) q = some (Node.dir f) from hl]
        exact hgit
      · obtain ⟨s, hq, hg⟩ := mem_walkChildren_gitDir f _ p q hwf hc
        subst hq
        have hcomp := lookupGo_append p s (Node.dir fs)
        rw [show lookupGo (Node.dir fs) p = some (Node.dir f) from hl] at hcomp
        unfold hasGitDirChild gitDirAt
        rw [hcomp]
        exact hg

/-- A repository whose target name already exists on the host, or whose
remote lookup is falsy, contributes no mutating effect. -/
theorem process_trace_nil (w : World) (d : List String)
    (h : repo_exists w ("migration25-" ++ dirName d) = true ∨
      truthyStr (get_current_remote w d) = false) :
    (process_repository w d).2 = [] := by
  unfold process_repository
  rcases h with h | h
  · cases hg : is_git_repo w.fs d
    · simp [hg]
    · cases ht : truthyStr (get_current_remote w d)
      · simp [hg, ht]
      · simp [hg, ht, h]
  · cases hg : is_git_repo w.fs d
    · simp [hg]
    · simp [hg, h]

/-- A run over repositories that are all skippable records no effect. -/
theorem runAll_eq_nil (w : World) (l : List (List String))
    (h : l.all (fun d => repo_exists w ("migration25-" ++ dirName d) ||
      !truthyStr (get_current_remote w d)) = true) :
    runAll w l = [] := by
  induction l with
  | nil => rfl
  | cons d rest ih =>
    rw [List.all_cons, Bool.and_eq_true] at h
    have h1 : repo_exists w ("migration25-" ++ dirName d) = true ∨
        truthyStr (get_current_remote w d) = false := by
      have := h.1
      rw [Bool.or_eq_true, Bool.not_eq_true'] at this
      exact this
    show (process_repository w d).2 ++ runAll w rest = []
    rw [process_trace_nil w d h1, ih h.2]
    rfl

/-- C1: evaluation of discovery at a tree where repository A directly
contains repository B (A/.git/, A/B/.git/).  The claim says that once A
is classified its subtree is not descended into and contributes no
further result, so discovery should return only A; the code prunes only
the ".git" entry from the walk (despite its comment "Skip subdirectories
of git repos"), descends into B and returns the nested repository as
well. -/
theorem C1_nested_repo_listed :
    find_repositories fsNested ⟨[], true⟩ = [["A"], ["A", "B"]] := by
  decide

/-- C2 counterexample: "YES" differs from the accepted affirmative token
"yes", yet at the confirmation prompt (which is reached: discovery is
nonempty) the program proceeds and performs side effects, because the
comparison lowercases the response first.  This refutes the claim that
any input other than the exact accepted token yields zero side
effects. -/
theorem C2_counterexample :
    ¬("YES" = "yes") ∧ (find_repositories wHappy.fs tgtA).isEmpty = false ∧
    (mainRun wHappy tgtA "YES").2 ≠ [] := by
  decide

/-- C2 (amended): for every input string at the confirmation prompt
whose lowercased form differs from "yes", the program performs zero
side effects and exits with code 0. -/
theorem C2_decline_no_effects (w : World) (t : Target) (r : String)
    (hne : (find_repositories w.fs t).isEmpty = false)
    (h : lowerString r ≠ "yes") :
    mainRun w t r = (0, []) := by
  simp [mainRun, hne, beq_iff_eq, h]

/-- C2 witness: declining with "no" in a world with one discovered
repository exits 0 with no effects. -/
theorem C2_decline_no_effects_witness : mainRun wHappy tgtA "no" = (0, []) :=
  C2_decline_no_effects wHappy tgtA "no" (by decide) (by decide)

/-- C3: when every discovered repository either already has its computed
target name on the hosting provider or has no truthy remote (the state
after a completed run, with no intervening manual changes), a rerun of
the tool records no mutating effect at all: no creation call, no remote
update, no push. -/
theorem C3_second_run_no_effects (w : World) (t : Target) (r : String)
    (h : (find_repositories w.fs t).all
      (fun d => repo_exists w ("migration25-" ++ dirName d) ||
        !truthyStr (get_current_remote w d)) = true) :
    (mainRun w t r).2 = [] := by
  unfold mainRun
  cases he : (find_repositories w.fs t).isEmpty
  · cases hr : (lowerString r == "yes")
    · simp [he, hr]
    · simp [he, hr, runAll_eq_nil w _ h]
  · simp [he]

/-- C3 witness: rerunning against a world where the target name already
exists records no effect. -/
theorem C3_second_run_no_effects_witness : (mainRun wExists tgtA "yes").2 = [] :=
  C3_second_run_no_effects wExists tgtA "yes" (by decide)

/-- C4: when repointing the primary remote fails, update_remote reports
failure and its trace holds only the failed set-url attempt: the push is
never attempted. -/
theorem C4_seturl_failure_stops (w : World) (p : List String) (u : String)
    (code : Nat) (stderr : String)
    (h : w.gitSetUrl p u = ProcResult.err code stderr) :
    update_remote w p u = (false, [Effect.setUrl p u]) := by
  unfold update_remote
  rw [h]

/-- C4 witness: a concrete failing set-url, with no push in the trace. -/
theorem C4_seturl_failure_stops_witness :
    update_remote wSetUrlFail ["A"] "u" = (false, [Effect.setUrl ["A"] "u"]) :=
  C4_seturl_failure_stops wSetUrlFail ["A"] "u" 128 "fatal: not a git repository" rfl

/-- C5: a repository whose remote lookup yields no truthy remote is
skipped: process_repository returns False and records no effect, so
neither the creation step nor the remote-update/push step runs for
it. -/
theorem C5_no_remote_skipped (w : World) (d : List String)
    (h : truthyStr (get_current_remote w d) = false) :
    process_repository w d = (false, []) := by
  unfold process_repository
  cases hg : is_git_repo w.fs d
  · simp [hg]
  · simp [hg, h]

/-- C5 witness: a concrete repository whose git remote get-url fails. -/
theorem C5_no_remote_skipped_witness :
    process_repository wNoRemote ["A"] = (false, []) :=
  C5_no_remote_skipped wNoRemote ["A"] rfl

/-- C6: when the creation call fails for a repository that reached the
creation step, the only recorded effect is the failed creation attempt,
so the configured-remote state is unchanged by the repository's trace
(no remote update and no push is attempted) and its migration reports
failure, while the driving loop still processes the remaining
repositories. -/
theorem C6_create_failure_aborts (w : World) (st : List (List String × String))
    (d : List String) (rest : List (List String)) (code : Nat) (stderr : String)
    (h1 : is_git_repo w.fs d = true)
    (h2 : truthyStr (get_current_remote w d) = true)
    (h3 : repo_exists w ("migration25-" ++ dirName d) = false)
    (h4 : w.ghCreate ("migration25-" ++ dirName d) "" = ProcResult.err code stderr) :
    process_repository w d = (false, [Effect.create ("migration25-" ++ dirName d) ""]) ∧
    remotesAfter w st (process_repository w d).2 = st ∧
    runAll w (d :: rest) = (process_repository w d).2 ++ runAll w rest := by
  have hp : process_repository w d =
      (false, [Effect.create ("migration25-" ++ dirName d) ""]) := by
    unfold process_repository create_github_repo
    rw [h4]
    simp [h1, h2, h3, show truthyStr none = false from rfl]
  refine ⟨hp, ?_, rfl⟩
  rw [hp]
  rfl

/-- C6 witness: a concrete failed creation leaves the remote state
untouched and the loop continues to the next repository. -/
theorem C6_create_failure_aborts_witness :
    process_repository wCreateFail ["A"] = (false, [Effect.create "migration25-A" ""]) ∧
    remotesAfter wCreateFail [(["A"], "git@old:A.git")]
      (process_repository wCreateFail ["A"]).2 = [(["A"], "git@old:A.git")] ∧
    runAll wCreateFail [["A"], ["B"]] =
      (process_repository wCreateFail ["A"]).2 ++ runAll wCreateFail [["B"]] :=
  C6_create_failure_aborts wCreateFail [(["A"], "git@old:A.git")] ["A"] [["B"]] 1
    "GraphQL: Name already exists on this account" (by decide) (by decide) (by decide) rfl

/-- C7 counterexample: the target A/x neither exists nor is a directory,
yet discovery returns the empty list rather than walking the target's
parent directory A, which holds the repository A/R.  The parent
fallback is reached only when the raw target string ends with the path
separator. -/
theorem C7_counterexample :
    pexists fsC7 ["A", "x"] = false ∧ isDirAt fsC7 ["A", "x"] = false ∧
    find_repositories fsC7 ⟨["A", "x"], false⟩ = [] ∧
    walkFrom fsC7 (["A", "x"].dropLast) = [["A", "R"]] := by
  decide

/-- C7 (amended): for every target string that ends with the path
separator but is not an existing path, discovery uses the target's
parent directory as the search root. -/
theorem C7_trailing_sep_parent_fallback (fs : Forest) (t : Target)
    (h1 : t.endsWithSep = true) (h2 : pexists fs t.comps = false) :
    find_repositories fs t = walkFrom fs t.comps.dropLast := by
  unfold find_repositories
  rw [h1]
  simp [h2]

/-- C7 witness: the trailing-separator form of the same nonexistent
target does walk the parent. -/
theorem C7_trailing_sep_parent_fallback_witness :
    find_repositories fsC7 ⟨["A", "x"], true⟩ = walkFrom fsC7 (["A", "x"].dropLast) :=
  C7_trailing_sep_parent_fallback fsC7 ⟨["A", "x"], true⟩ rfl (by decide)

/-- C8: remote inspection returns the stripped stdout of a successful
git remote get-url as the configured remote URL, and returns the
absence value whenever the command fails, uniformly in the failure's
return code and stderr, so no failure cause is distinguished. -/
theorem C8_lookup_failure_is_absence (w w2 : World) (p : List String)
    (out : String) (code : Nat) (stderr : String)
    (hok : w.gitGetUrl p = ProcResult.ok out)
    (herr : w2.gitGetUrl p = ProcResult.err code stderr) :
    get_current_remote w p = some (stripString out) ∧ get_current_remote w2 p = none := by
  unfold get_current_remote
  rw [hok, herr]
  exact ⟨rfl, rfl⟩

/-- C8 witness: a concrete success and a concrete failure. -/
theorem C8_lookup_failure_is_absence_witness :
    get_current_remote wHappy ["A"] = some (stripString "git@old:A.git\n") ∧
    get_current_remote wNoRemote ["A"] = none :=
  C8_lookup_failure_is_absence wHappy wNoRemote ["A"] "git@old:A.git\n" 2
    "error: No such remote" rfl rfl

/-- C9: the hosted-repository existence check returns existence exactly
when gh repo view succeeds, and returns non-existence whenever the
lookup fails, uniformly in the failure's return code and stderr
(including an actual does-not-exist failure). -/
theorem C9_view_failure_is_nonexistence (w w2 : World) (n : String)
    (out : String) (code : Nat) (stderr : String)
    (hok : w.ghView n = ProcResult.ok out)
    (herr : w2.ghView n = ProcResult.err code stderr) :
    repo_exists w n = true ∧ repo_exists w2 n = false := by
  unfold repo_exists
  rw [hok, herr]
  exact ⟨rfl, rfl⟩

/-- C9 witness: a concrete succeeding view and a concrete failing
view. -/
theorem C9_view_failure_is_nonexistence_witness :
    repo_exists wExists "migration25-A" = true ∧
    repo_exists wHappy "migration25-A" = false :=
  C9_view_failure_is_nonexistence wExists wHappy "migration25-A" "info" 1
    "not found" rfl rfl

/-- C10: the marker test is asymmetric.  Walking a search root over a
well-formed filesystem classifies a directory only if its ".git" entry
is itself a directory (every discovery result in walk mode has a
directory child named ".git"), whereas the is_git_repo test applied to
a directly given repository path accepts any existing ".git" entry:
on the tree where A/.git is a plain file, is_git_repo accepts A while
the walk classifies nothing. -/
theorem C10_marker_asymmetry :
    (∀ (fs : Forest) (t : Target) (q : List String), wfForest fs = true →
      (t.endsWithSep || (pexists fs t.comps && isDirAt fs t.comps)) = true →
      q ∈ find_repositories fs t → hasGitDirChild fs q = true) ∧
    (is_git_repo fsDotGitFile ["A"] = true ∧ walkFrom fsDotGitFile [] = []) := by
  refine ⟨?_, by decide, by decide⟩
  intro fs t q hw hcond hmem
  unfold find_repositories at hmem
  rw [hcond] at hmem
  simp only [if_true] at hmem
  exact mem_walkFrom_gitDir fs _ q hw hmem

/-- C10 witness: the repository found below the search root in a
concrete walk has a ".git" directory child, and the file-marker
contrast is restated. -/
theorem C10_marker_asymmetry_witness :
    hasGitDirChild fsSingle ["A"] = true ∧
    (is_git_repo fsDotGitFile ["A"] = true ∧ walkFrom fsDotGitFile [] = []) :=
  ⟨C10_marker_asymmetry.1 fsSingle ⟨[], true⟩ ["A"] (by decide) (by decide) (by decide),
   C10_marker_asymmetry.2⟩

end UpdateRemotes
